import Mathlib

/-!
Verification of the two core routines of the offer-HTML application
(`src/app.py`): the header-row detection loop (`auto_header`, lines 66-71)
and the cell value formatter (`format_value`, lines 11-32).

Cell values are modelled by the inductive type `Val`, covering the scalar
shapes an openpyxl cell value can take here: absent (`None`), text, int,
float and bool.  Python floats are modelled by rationals; every concrete
value used below has an exact, tie-free double representation, so the
rational renderings agree with CPython's.
-/

namespace OfferApp

attribute [local semireducible] Rat.mul Rat.inv Rat.add Rat.sub

/-- A raw spreadsheet cell value, as delivered by `c.value` in `app.py`. -/
inductive Val where
  | none
  | str (s : String)
  | int (n : Int)
  | float (q : Rat)
  | bool (b : Bool)
deriving DecidableEq

/-- Python `c in s` for a single character `c`: substring containment of a
one-character needle is character membership.  (The code's duplicated checks
such as `"£" in fmt or "£" in fmt` are redundant: `"£"` *is* `"£"`.) -/
def strContainsChar (s : String) (c : Char) : Bool :=
  s.toList.any (fun x => decide (x = c))

/-- Floor of a rational, `q.num.fdiv q.den` (mathematical floor). -/
def ratFloor (q : Rat) : Int :=
  q.num.fdiv q.den

/-- Round to the nearest integer, ties to even: the rounding CPython's
`format(x, ',.2f')` applies to the (here exactly represented) value. -/
def roundHalfEven (q : Rat) : Int :=
  let f := ratFloor q
  let r := q - (f : Rat)
  if r < 1/2 then f
  else if 1/2 < r then f + 1
  else if f % 2 = 0 then f else f + 1

/-- Insert a comma before every third character, scanning a reversed digit
list; `n` counts how many digits of the current group remain. -/
def groupAux : List Char → Nat → List Char
  | [], _ => []
  | c :: cs, 0 => ',' :: c :: groupAux cs 2
  | c :: cs, n + 1 => c :: groupAux cs n

/-- Decimal rendering of a natural number with comma thousands separators,
as Python's `,` format-spec flag produces. -/
def commaNat (n : Nat) : String :=
  String.mk ((groupAux (toString n).toList.reverse 3).reverse)

/-- A hundredths count rendered as exactly two digits. -/
def twoDigitStr (n : Nat) : String :=
  if n < 10 then "0" ++ toString n else toString n

/-- `f"{q:,.2f}"` for a nonnegative rational: round to hundredths, then
comma-grouped integer part, a period, and exactly two fraction digits. -/
def commaBody (q : Rat) : String :=
  let c := (roundHalfEven (q * 100)).toNat
  commaNat (c / 100) ++ "." ++ twoDigitStr (c % 100)

/-- `f"{q:,.2f}"`: Python writes a leading `-` for negative input and
formats the absolute value. -/
def commaFmt2 (q : Rat) : String :=
  if q < 0 then "-" ++ commaBody (-q) else commaBody q

/-- Fraction digits of a rational in `[0,1)`: repeatedly multiply by ten and
emit the integer digit, stopping at remainder zero (or after `fuel` digits). -/
def fracDigitsAux : Rat → Nat → String
  | _, 0 => ""
  | r, fuel + 1 =>
    if r = 0 then ""
    else
      let d : Nat := (ratFloor (r * 10)).toNat
      toString d ++ fracDigitsAux (r * 10 - (d : Rat)) fuel

/-- Python `str` of a float with a terminating decimal expansion: sign,
integer part, period, fraction digits (at least one, so `str(4.0) = "4.0"`). -/
def pyFloatStr (q : Rat) : String :=
  let s := if q < 0 then "-" else ""
  let a := |q|
  let ip := (ratFloor a).toNat
  let fr := a - (ip : Rat)
  s ++ toString ip ++ "." ++ (if fr = 0 then "0" else fracDigitsAux fr 17)

/-- Python `str(val)` for the modelled cell values. -/
def pyStr : Val → String
  | Val.none => "None"
  | Val.str s => s
  | Val.int n => toString n
  | Val.float q => pyFloatStr q
  | Val.bool b => if b then "True" else "False"

/-- Numeric value of a list of decimal digit characters. -/
def digitsToNat (cs : List Char) : Nat :=
  cs.foldl (fun a c => a * 10 + (c.toNat - 48)) 0

/-- Parse an unsigned decimal literal: digits, optionally followed by a
period and further digits, with at least one digit overall. -/
def parseDecimal (cs : List Char) : Option Rat :=
  match cs.span (fun c => c.isDigit) with
  | (ip, []) => if ip.isEmpty then Option.none else Option.some ((digitsToNat ip : Nat) : Rat)
  | (ip, '.' :: fp) =>
    if fp.all (fun c => c.isDigit) && !(ip.isEmpty && fp.isEmpty) then
      Option.some (((digitsToNat ip : Nat) : Rat) + ((digitsToNat fp : Nat) : Rat) / (10 : Rat) ^ fp.length)
    else Option.none
  | _ => Option.none

/-- Python `float(s)` on a string: strip surrounding whitespace, optional
sign, decimal literal.  (The exotic forms `inf`/`nan`/exponents, which no
value in this development exercises, are not modelled: `nan` has no
rational image.)  `Option.none` models a raised `ValueError`. -/
def parseFloat (s : String) : Option Rat :=
  match ((s.toList.dropWhile Char.isWhitespace).reverse.dropWhile
      Char.isWhitespace).reverse with
  | '-' :: rest => (parseDecimal rest).map (fun q => -q)
  | '+' :: rest => parseDecimal rest
  | cs => parseDecimal cs

/-- Python `float(val)`: `Option.none` models a raised exception
(`TypeError` on `None`, `ValueError` on an unparseable string). -/
def pyFloat : Val → Option Rat
  | Val.none => Option.none
  | Val.str s => parseFloat s
  | Val.int n => Option.some ((n : Int) : Rat)
  | Val.float q => Option.some q
  | Val.bool b => Option.some (if b then 1 else 0)

/-- `format_value(val, fmt)` from `src/app.py` lines 11-32, branch for
branch: absent value first; then the `£`/`€`/`$` substring checks in order,
each returning `f"{sym}{float(val):,.2f}"`, with a coercion failure caught
by the bare `except` and falling through to `str(val)`; then the
`isinstance(val, float)` plain-float branch; finally `str(val)`. -/
def format_value (val : Val) (fmt : String) : String :=
  if val = Val.none then ""
  else if strContainsChar fmt '£' then
    match pyFloat val with
    | Option.some q => "£" ++ commaFmt2 q
    | Option.none => pyStr val
  else if strContainsChar fmt '€' then
    match pyFloat val with
    | Option.some q => "€" ++ commaFmt2 q
    | Option.none => pyStr val
  else if strContainsChar fmt '$' then
    match pyFloat val with
    | Option.some q => "$" ++ commaFmt2 q
    | Option.none => pyStr val
  else
    match val with
    | Val.float q => commaFmt2 q
    | _ => pyStr val

/-- Whether `fmt` contains any of the three currency characters the
formatter tests for. -/
def hasCurrency (fmt : String) : Bool :=
  strContainsChar fmt '£' || strContainsChar fmt '€' || strContainsChar fmt '$'

/-- Python `v not in (None, "")` on a cell value (`app.py` line 69). -/
def cellNonEmpty (v : Val) : Bool :=
  !(decide (v = Val.none) || decide (v = Val.str ""))

/-- `sum(1 for v in vals if v not in (None, ""))` over one row. -/
def nonEmptyCount (row : List Val) : Nat :=
  (row.filter cellNonEmpty).length

/-- The majority test of `app.py` line 69, with Python's true division:
`count > len(vals) / 2` over exact rationals. -/
def rowQualifies (row : List Val) : Bool :=
  decide (((row.length : Nat) : Rat) / 2 < ((nonEmptyCount row : Nat) : Rat))

/-- Row `i` (1-based) of the grid; rows past the end are empty, and an
empty row never qualifies, matching a worksheet row of blank cells. -/
def rowAt (grid : List (List Val)) (i : Nat) : List Val :=
  grid.getD (i - 1) []

/-- The scan loop of `app.py` lines 67-71, scanning rows `i, i+1, ...` with
`fuel` iterations left and returning `default` when the loop ends without a
`break`. -/
def detectFrom (grid : List (List Val)) (default : Nat) : Nat → Nat → Nat
  | _, 0 => default
  | i, fuel + 1 =>
    if rowQualifies (rowAt grid i) then i
    else detectFrom grid default (i + 1) fuel

/-- `detect_header_row(grid, max_rows, default)`, the spec's contract for
`app.py` lines 66-71: the code inlines `max_rows = 20` (`range(1, 21)`) and
`default = 1` (the initialisation `auto_header = 1`). -/
def auto_header (grid : List (List Val)) (max_rows default : Nat) : Nat :=
  detectFrom grid default 1 max_rows

/-- Concrete grids for the spec's §8 scenario: the grid exactly as the
scenario writes it (ragged first row of width 1), and the same sheet with
row 1 padded to the sheet's width of 4 blank-filled cells, which is what
the worksheet accessor `ws[1]` hands the loop for a 4-column sheet. -/
def gridC3 : List (List Val) :=
  [[Val.str "Logo"],
   [Val.str "", Val.str "", Val.str "", Val.str ""],
   [Val.str "Code", Val.str "Name", Val.str "Price", Val.str "Qty"],
   [Val.str "A1", Val.str "Widget", Val.float (999/100), Val.int 3]]

/-- `gridC3` with its first row padded to the sheet width. -/
def gridC3Padded : List (List Val) :=
  [[Val.str "Logo", Val.none, Val.none, Val.none],
   [Val.str "", Val.str "", Val.str "", Val.str ""],
   [Val.str "Code", Val.str "Name", Val.str "Price", Val.str "Qty"],
   [Val.str "A1", Val.str "Widget", Val.float (999/100), Val.int 3]]

theorem pyFloat_some_ne_none {val : Val} {q : Rat}
    (h : pyFloat val = Option.some q) : val ≠ Val.none := by
  intro e
  subst e
  simp [pyFloat] at h

theorem format_value_pound (val : Val) (fmt : String) (q : Rat)
    (h : pyFloat val = Option.some q) (hp : strContainsChar fmt '£' = true) :
    format_value val fmt = "£" ++ commaFmt2 q := by
  have hv : ¬(val = Val.none) := pyFloat_some_ne_none h
  simp [format_value, hv, hp, h]

theorem format_value_euro (val : Val) (fmt : String) (q : Rat)
    (h : pyFloat val = Option.some q)
    (h1 : strContainsChar fmt '£' = false) (h2 : strContainsChar fmt '€' = true) :
    format_value val fmt = "€" ++ commaFmt2 q := by
  have hv : ¬(val = Val.none) := pyFloat_some_ne_none h
  simp [format_value, hv, h1, h2, h]

theorem format_value_dollar (val : Val) (fmt : String) (q : Rat)
    (h : pyFloat val = Option.some q)
    (h1 : strContainsChar fmt '£' = false) (h2 : strContainsChar fmt '€' = false)
    (h3 : strContainsChar fmt '$' = true) :
    format_value val fmt = "$" ++ commaFmt2 q := by
  have hv : ¬(val = Val.none) := pyFloat_some_ne_none h
  simp [format_value, hv, h1, h2, h3, h]

theorem commaFmt2_neg (q : Rat) (h : q < 0) :
    commaFmt2 q = "-" ++ commaBody (-q) := by
  simp [commaFmt2, h]

theorem detectFrom_first (grid : List (List Val)) (default j : Nat)
    (hq : rowQualifies (rowAt grid j) = true) :
    ∀ fuel start, start ≤ j → j < start + fuel →
      (∀ i, start ≤ i → i < j → rowQualifies (rowAt grid i) = false) →
      detectFrom grid default start fuel = j := by
  intro fuel
  induction fuel with
  | zero =>
    intro start h1 h2 _
    omega
  | succ n ih =>
    intro start h1 h2 hmin
    by_cases hs : rowQualifies (rowAt grid start) = true
    · have hje : start = j := by
        by_contra hne
        have hlt : start < j := lt_of_le_of_ne h1 hne
        rw [hmin start (le_refl start) hlt] at hs
        exact Bool.false_ne_true hs
      subst hje
      simp [detectFrom, hs]
    · have hs' : rowQualifies (rowAt grid start) = false :=
        Bool.eq_false_iff.mpr hs
      have hne : start ≠ j := by
        intro e
        rw [e, hq] at hs'
        exact Bool.noConfusion hs'
      have hstep : start + 1 ≤ j := by omega
      have := ih (start + 1) hstep (by omega)
        (fun i hi1 hi2 => hmin i (by omega) hi2)
      simp [detectFrom, hs', this]

theorem detectFrom_no_qualify (grid : List (List Val)) (default : Nat) :
    ∀ fuel start,
      (∀ i, start ≤ i → i < start + fuel → rowQualifies (rowAt grid i) = false) →
      detectFrom grid default start fuel = default := by
  intro fuel
  induction fuel with
  | zero =>
    intro start _
    rfl
  | succ n ih =>
    intro start hnone
    have hs : rowQualifies (rowAt grid start) = false :=
      hnone start (le_refl start) (by omega)
    have := ih (start + 1) (fun i hi1 hi2 => hnone i (by omega) (by omega))
    simp [detectFrom, hs, this]

theorem detectFrom_range (grid : List (List Val)) (default : Nat) :
    ∀ fuel start,
      detectFrom grid default start fuel = default ∨
        (start ≤ detectFrom grid default start fuel ∧
          detectFrom grid default start fuel < start + fuel) := by
  intro fuel
  induction fuel with
  | zero =>
    intro start
    exact Or.inl rfl
  | succ n ih =>
    intro start
    by_cases hs : rowQualifies (rowAt grid start) = true
    · right
      have hrw : detectFrom grid default start (n + 1) = start := by
        simp [detectFrom, hs]
      rw [hrw]
      omega
    · have hs' : rowQualifies (rowAt grid start) = false :=
        Bool.eq_false_iff.mpr hs
      have hrw : detectFrom grid default start (n + 1)
          = detectFrom grid default (start + 1) n := by
        simp [detectFrom, hs']
      rcases ih (start + 1) with h | ⟨h1, h2⟩
      · left
        rw [hrw, h]
      · right
        rw [hrw]
        omega

/-- C1: for every grid and scan bound, the detector returns the 1-based
index of the first row (scanning top-to-bottom) whose count of cells that
are neither absent nor the empty string strictly exceeds half of that row's
own cell count, and once a row qualifies no later row is considered. -/
theorem auto_header_first_qualifying (grid : List (List Val))
    (max_rows default j : Nat)
    (h1 : 1 ≤ j) (h2 : j ≤ max_rows)
    (hq : rowQualifies (rowAt grid j) = true)
    (hmin : ∀ i, 1 ≤ i → i < j → rowQualifies (rowAt grid i) = false) :
    auto_header grid max_rows default = j :=
  detectFrom_first grid default j hq max_rows 1 h1 (by omega) hmin

/-- Witness for C1 at a concrete grid: row 1 is all-absent, row 2 has two
of two cells non-empty, so the detector picks row 2. -/
theorem auto_header_first_qualifying_witness :
    auto_header [[Val.none], [Val.str "A", Val.str "B"]] 20 1 = 2 := by
  apply auto_header_first_qualifying
  · decide
  · decide
  · decide
  · intro i hi1 hi2
    have : i = 1 := by omega
    subst this
    decide

/-- C3 counterexample: on the scenario's grid exactly as written, row 1 is
`["Logo"]` with 1 of 1 cells non-empty, a strict majority of its own width,
so the detector stops at row 1 — not row 3 as the scenario asserts. -/
theorem auto_header_scenario_counterexample :
    auto_header gridC3 20 1 = 1 ∧ auto_header gridC3 20 1 ≠ 3 := by
  constructor
  · decide
  · decide

/-- C3 amended: the detector returns 1 on the scenario grid as written
(row 1, of width 1, already qualifies); it returns 3 once row 1 is padded
to the sheet's width of 4, as the worksheet accessor delivers it. -/
theorem auto_header_scenario_amended :
    auto_header gridC3 20 1 = 1 ∧ auto_header gridC3Padded 20 1 = 3 := by
  constructor
  · decide
  · decide

/-- C6: the detector never fails — a row of width 0 never qualifies (there
is no division-by-zero), and whenever no row of the scan window qualifies
(in particular for an all-empty window) it returns the supplied default. -/
theorem auto_header_default_policy :
    (∀ row : List Val, row.length = 0 → rowQualifies row = false) ∧
      ∀ (grid : List (List Val)) (max_rows default : Nat),
        (∀ i, 1 ≤ i → i ≤ max_rows → rowQualifies (rowAt grid i) = false) →
        auto_header grid max_rows default = default := by
  constructor
  · intro row h
    have : row = [] := List.length_eq_zero.mp h
    subst this
    decide
  · intro grid max_rows default hnone
    exact detectFrom_no_qualify grid default max_rows 1
      (fun i hi1 hi2 => hnone i hi1 (by omega))

/-- Witness for C6 at a concrete all-empty window: a grid whose only rows
are an absent/empty-string row and a width-0 row returns the default 7. -/
theorem auto_header_default_policy_witness :
    rowQualifies ([] : List Val) = false ∧
      auto_header [[Val.none, Val.str ""], []] 20 7 = 7 := by
  constructor
  · exact auto_header_default_policy.1 [] rfl
  · apply auto_header_default_policy.2
    intro i hi1 hi2
    match i with
    | 1 => decide
    | 2 => decide
    | (n + 3) =>
      have hlen : ([[Val.none, Val.str ""], []] : List (List Val)).length ≤ n + 2 := by
        simp
      show rowQualifies (rowAt [[Val.none, Val.str ""], []] (n + 3)) = false
      rw [rowAt, show n + 3 - 1 = n + 2 by omega, List.getD_eq_default _ _ hlen]
      decide

/-- C7: with the code's inlined bounds (`max_rows = 20`, `default = 1`),
the detector's result always lies in `[1, 20]`, the window of scanned
rows. -/
theorem auto_header_range (grid : List (List Val)) :
    1 ≤ auto_header grid 20 1 ∧ auto_header grid 20 1 ≤ 20 := by
  rcases detectFrom_range grid 1 20 1 with h | ⟨ha, hb⟩
  · rw [auto_header, h]
    omega
  · rw [auto_header]
    omega

/-- C8: an absent value formats to the empty text whatever the format
string is — the `None` check precedes every other rule. -/
theorem format_value_absent (fmt : String) : format_value Val.none fmt = "" := by
  simp [format_value]

/-- C9: the detector's majority count treats a cell as empty exactly when
it is absent or the empty string; numeric zero, boolean `False` and
whitespace-only strings all count as non-empty. -/
theorem cellNonEmpty_semantics :
    (∀ v : Val, cellNonEmpty v = true ↔ v ≠ Val.none ∧ v ≠ Val.str "") ∧
      cellNonEmpty (Val.int 0) = true ∧ cellNonEmpty (Val.float 0) = true ∧
      cellNonEmpty (Val.bool false) = true ∧ cellNonEmpty (Val.str " ") = true := by
  refine ⟨fun v => ?_, by decide, by decide, by decide, by decide⟩
  simp [cellNonEmpty]

/-- C2 counterexample: the integer-valued Python float `4.0` under an empty
format string — the code's `isinstance(val, float)` branch formats it as
`"4.00"`, while the claim's "non-integer real number" rule would instead
demand the plain textual representation `str(4.0) = "4.0"`. -/
theorem format_value_plain_float_counterexample :
    format_value (Val.float 4) "" = "4.00" ∧ pyStr (Val.float 4) = "4.0" ∧
      format_value (Val.float 4) "" ≠ pyStr (Val.float 4) := by
  refine ⟨by decide, by decide, by decide⟩

/-- C2 amended: with no currency symbol in the format string, every float —
integer-valued or not — is rendered with two decimals and comma grouping,
and every other non-absent value is rendered as its plain text; in
particular `format_value 1234.5 "" = "1,234.50"`. -/
theorem format_value_no_currency :
    (∀ (q : Rat) (fmt : String), hasCurrency fmt = false →
        format_value (Val.float q) fmt = commaFmt2 q) ∧
      (∀ (val : Val) (fmt : String), hasCurrency fmt = false →
        val ≠ Val.none → (∀ q, val ≠ Val.float q) →
        format_value val fmt = pyStr val) ∧
      format_value (Val.float (2469/2)) "" = "1,234.50" := by
  refine ⟨?_, ?_, by decide⟩
  · intro q fmt hfmt
    have h1 : strContainsChar fmt '£' = false := by
      simp only [hasCurrency, Bool.or_eq_false_iff] at hfmt
      exact hfmt.1.1
    have h2 : strContainsChar fmt '€' = false := by
      simp only [hasCurrency, Bool.or_eq_false_iff] at hfmt
      exact hfmt.1.2
    have h3 : strContainsChar fmt '$' = false := by
      simp only [hasCurrency, Bool.or_eq_false_iff] at hfmt
      exact hfmt.2
    simp [format_value, h1, h2, h3]
  · intro val fmt hfmt hv hnf
    have h1 : strContainsChar fmt '£' = false := by
      simp only [hasCurrency, Bool.or_eq_false_iff] at hfmt
      exact hfmt.1.1
    have h2 : strContainsChar fmt '€' = false := by
      simp only [hasCurrency, Bool.or_eq_false_iff] at hfmt
      exact hfmt.1.2
    have h3 : strContainsChar fmt '$' = false := by
      simp only [hasCurrency, Bool.or_eq_false_iff] at hfmt
      exact hfmt.2
    cases val with
    | none => exact absurd rfl hv
    | float q => exact absurd rfl (hnf q)
    | str s => simp [format_value, h1, h2, h3, pyStr]
    | int n => simp [format_value, h1, h2, h3, pyStr]
    | bool b => simp [format_value, h1, h2, h3, pyStr]

/-- Witness for C2's amended theorem: the float branch at `4.0` and the
plain-text branch at `"Widget"`. -/
theorem format_value_no_currency_witness :
    format_value (Val.float 4) "x" = "4.00" ∧
      format_value (Val.str "Widget") "" = "Widget" := by
  constructor
  · rw [format_value_no_currency.1 4 "x" (by decide)]
    decide
  · rw [format_value_no_currency.2.1 (Val.str "Widget") "" (by decide)
      (by decide) (fun q h => Val.noConfusion h)]
    decide

/-- C4: when the format string carries a currency symbol and the value
coerces to a number, the output is that number with two decimals and comma
grouping behind the symbol, and a format string with several symbols is
decided by the first match in the fixed order pound, euro, dollar. -/
theorem format_value_currency_priority (val : Val) (fmt : String) (q : Rat)
    (h : pyFloat val = Option.some q) :
    (strContainsChar fmt '£' = true →
        format_value val fmt = "£" ++ commaFmt2 q) ∧
      (strContainsChar fmt '£' = false → strContainsChar fmt '€' = true →
        format_value val fmt = "€" ++ commaFmt2 q) ∧
      (strContainsChar fmt '£' = false → strContainsChar fmt '€' = false →
        strContainsChar fmt '$' = true →
        format_value val fmt = "$" ++ commaFmt2 q) :=
  ⟨fun hp => format_value_pound val fmt q h hp,
   fun h1 h2 => format_value_euro val fmt q h h1 h2,
   fun h1 h2 h3 => format_value_dollar val fmt q h h1 h2 h3⟩

/-- Witness for C4: the spec's three examples at `1234.5`, plus a
several-symbol format string `"€$"` resolved by priority to the euro. -/
theorem format_value_currency_priority_witness :
    format_value (Val.float (2469/2)) "£0.00" = "£1,234.50" ∧
      format_value (Val.float (2469/2)) "€0.00" = "€1,234.50" ∧
      format_value (Val.float (2469/2)) "$0.00" = "$1,234.50" ∧
      format_value (Val.float (2469/2)) "€$" = "€1,234.50" := by
  refine ⟨?_, ?_, ?_, ?_⟩
  · rw [(format_value_currency_priority (Val.float (2469/2)) "£0.00" (2469/2)
      rfl).1 (by decide)]
    decide
  · rw [(format_value_currency_priority (Val.float (2469/2)) "€0.00" (2469/2)
      rfl).2.1 (by decide) (by decide)]
    decide
  · rw [(format_value_currency_priority (Val.float (2469/2)) "$0.00" (2469/2)
      rfl).2.2 (by decide) (by decide) (by decide)]
    decide
  · rw [(format_value_currency_priority (Val.float (2469/2)) "€$" (2469/2)
      rfl).2.1 (by decide) (by decide)]
    decide

/-- C5: the formatter is a total function, and whenever the coercion
`float(val)` fails (any non-absent, non-numeric value), the failure is
swallowed and the plain textual representation comes back — whatever the
format string, currency-bearing or not. -/
theorem format_value_coercion_failure (val : Val) (fmt : String)
    (hv : val ≠ Val.none) (hf : pyFloat val = Option.none) :
    format_value val fmt = pyStr val := by
  have hs : ∃ s, val = Val.str s := by
    cases val with
    | none => exact absurd rfl hv
    | str s => exact ⟨s, rfl⟩
    | int n => simp [pyFloat] at hf
    | float q => simp [pyFloat] at hf
    | bool b => simp [pyFloat] at hf
  obtain ⟨s, rfl⟩ := hs
  by_cases h1 : strContainsChar fmt '£' = true
  · simp [format_value, h1, hf]
  · by_cases h2 : strContainsChar fmt '€' = true
    · simp [format_value, h1, h2, hf]
    · by_cases h3 : strContainsChar fmt '$' = true
      · simp [format_value, h1, h2, h3, hf]
      · simp [format_value, h1, h2, h3, pyStr]

/-- Witness for C5 at the spec's example: an unparseable string under a
pound format falls back to itself. -/
theorem format_value_coercion_failure_witness :
    format_value (Val.str "not-a-number") "£0.00" = "not-a-number" := by
  rw [format_value_coercion_failure (Val.str "not-a-number") "£0.00"
    (by decide) (by decide)]
  decide

/-- C10: a negative number under a currency rule is rendered with the
currency symbol before the minus sign, under each of the three symbols in
their priority order. -/
theorem format_value_negative_currency (val : Val) (fmt : String) (q : Rat)
    (h : pyFloat val = Option.some q) (hneg : q < 0) :
    (strContainsChar fmt '£' = true →
        format_value val fmt = "£" ++ ("-" ++ commaBody (-q))) ∧
      (strContainsChar fmt '£' = false → strContainsChar fmt '€' = true →
        format_value val fmt = "€" ++ ("-" ++ commaBody (-q))) ∧
      (strContainsChar fmt '£' = false → strContainsChar fmt '€' = false →
        strContainsChar fmt '$' = true →
        format_value val fmt = "$" ++ ("-" ++ commaBody (-q))) := by
  have hneg' : commaFmt2 q = "-" ++ commaBody (-q) := commaFmt2_neg q hneg
  exact ⟨fun hp => by rw [format_value_pound val fmt q h hp, hneg'],
    fun h1 h2 => by rw [format_value_euro val fmt q h h1 h2, hneg'],
    fun h1 h2 h3 => by rw [format_value_dollar val fmt q h h1 h2 h3, hneg']⟩

/-- Witness for C10: `format_value (-1234.5) "£0.00" = "£-1,234.50"`. -/
theorem format_value_negative_currency_witness :
    format_value (Val.float (-2469/2)) "£0.00" = "£-1,234.50" := by
  rw [(format_value_negative_currency (Val.float (-2469/2)) "£0.00" (-2469/2)
    rfl (by decide)).1 (by decide)]
  decide
